import Mathlib

/-!
Shallow embedding of the retry/backoff HTTP client
(`client/requester.go`, the `RestClient` type with its `Do` and `call`
methods) and proofs about its retry loop, backoff schedule and error
reporting.

The effectful steps of one HTTP attempt (JSON-encoding the payload,
building the request, the network exchange, reading the body) are
resolved by an environment oracle `CallEnv`; `DoEnv` supplies one such
oracle per attempt index together with the JSON decode function for the
callers output shape.  Float64 backoff arithmetic is embedded over `ℚ`;
the Go float-to-`int64` conversion in `time.Duration(sleep)` truncates
toward zero and is modelled by `goTrunc`.
-/

set_option maxHeartbeats 1000000

namespace GoRestClient

/-- Go `error` values, modelled as message strings. -/
abbrev GoError := String

/-- Raw response bodies (Go `[]byte`), modelled as byte lists. -/
abbrev Body := List Nat

/-- Decoded response values (the shape behind the `response` output
parameter), modelled abstractly. -/
abbrev JsonValue := String

deriving instance DecidableEq for Except

/-- `internalStatusRequestError = 999`, the reserved sentinel status. -/
def internalStatusRequestError : Int := 999

/-- The per-call configuration struct `RestClient` of `requester.go`.
`int64` fields are `Int`, `float64` retry-policy fields are `ℚ`,
`time.Duration` is `Int` nanoseconds, the header map is an
association list. -/
structure RestClient where
  method : String
  url : String
  header : List (String × String)
  maxAttempts : Int
  intervalSeconds : ℚ
  backoffRate : ℚ
  timeout : Int
deriving Repr, DecidableEq

/-- Oracle for one execution of `RestClient.call`: the outcome of each
effectful step.  A `some` error in a field means that step fails with
that error; `respStatus`/`respBody` are the parsed status line code and
the fully read body when every step succeeds.  Go's HTTP response
parser accepts any three-digit status code, so `respStatus` ranges over
what the wire can deliver, including `999`. -/
structure CallEnv where
  encodeErr : Option GoError
  requestErr : Option GoError
  transportErr : Option GoError
  readErr : Option GoError
  respStatus : Int
  respBody : Body
deriving Repr, DecidableEq

/-- The triple returned by `RestClient.call`:
`(int64, []byte, error)`. -/
structure CallResult where
  status : Int
  body : Option Body
  err : Option GoError
deriving Repr, DecidableEq

/-- Embedding of the `call` method: four early returns — encode
failure, `http.NewRequest` failure, `client.Do` failure, `io.ReadAll`
failure — each yielding `(internalStatusRequestError, nil, err)`,
otherwise `(int64(resp.StatusCode), bytes, nil)`. -/
def RestClient.call (_r : RestClient) (e : CallEnv) : CallResult :=
  match e.encodeErr with
  | some err => { status := internalStatusRequestError, body := none, err := some err }
  | none =>
    match e.requestErr with
    | some err => { status := internalStatusRequestError, body := none, err := some err }
    | none =>
      match e.transportErr with
      | some err => { status := internalStatusRequestError, body := none, err := some err }
      | none =>
        match e.readErr with
        | some err => { status := internalStatusRequestError, body := none, err := some err }
        | none => { status := e.respStatus, body := some e.respBody, err := none }

/-- Environment for one execution of `Do`: the call oracle for each
attempt index, and the behaviour of `json.Unmarshal` on a non-nil body
for the callers output shape. -/
structure DoEnv where
  attempt : Nat → CallEnv
  unmarshal : Body → Except GoError JsonValue

/-- State of the retry loop in `Do`: the variables
`status`, `resp`, `err`, `retries` of the Go function, plus ghost
instrumentation — how many times `call` ran (`calls`) and the computed
`sleep` value passed to `time.Sleep` at each iteration (`waits`). -/
structure LoopState where
  status : Int
  resp : Option Body
  err : Option GoError
  retries : Int
  calls : Nat
  waits : List ℚ
deriving Repr, DecidableEq

/-- One pass of the `for i := 0; i < r.maxAttempts; i++` loop of `Do`,
with `fuel` the remaining iteration count and `i` the loop index:
sleep for the current `sleep` value, invoke `call`, break when the
status is below `http.StatusInternalServerError` (500), otherwise
increment `retries` and set
`sleep = r.intervalSeconds * math.Pow(r.backoffRate, float64(i+1))`. -/
def doLoopAux (r : RestClient) (env : DoEnv) : Nat → Nat → ℚ → LoopState → LoopState
  | 0, _, _, st => st
  | fuel + 1, i, sleep, st =>
    let res := r.call (env.attempt i)
    let st' : LoopState :=
      { status := res.status, resp := res.body, err := res.err,
        retries := st.retries, calls := st.calls + 1, waits := st.waits ++ [sleep] }
    if res.status < 500 then st'
    else
      doLoopAux r env fuel (i + 1) (r.intervalSeconds * r.backoffRate ^ (i + 1))
        { st' with retries := st'.retries + 1 }

/-- The retry loop of `Do`, started from the zero-valued variables of
the Go function (`status = 0`, `resp = nil`, `err = nil`,
`retries = 0`) with initial `sleep = 0`; the iteration count is
`r.maxAttempts` clamped at zero, as `for i := 0; i < r.maxAttempts`. -/
def RestClient.doLoop (r : RestClient) (env : DoEnv) : LoopState :=
  doLoopAux r env r.maxAttempts.toNat 0 0
    { status := 0, resp := none, err := none, retries := 0, calls := 0, waits := [] }

/-- `json.Unmarshal(resp, &response)` on the `resp` variable of `Do`:
a nil slice (`none`) always fails with the JSON syntax error
`unexpected end of JSON input`; a non-nil body decodes as the
environment says. -/
def unmarshalGo (u : Body → Except GoError JsonValue) : Option Body → Except GoError JsonValue
  | none => Except.error "unexpected end of JSON input"
  | some b => u b

/-- Result of one execution of `Do`: the returned `(int64, error)`
pair, the final content of the output parameter (`some` exactly when
the decode succeeded), whether `json.Unmarshal` ran
(`decodeInvoked`), the loop trace, and the receiver configuration as
the method body leaves it. -/
structure DoResult where
  status : Int
  err : Option GoError
  output : Option JsonValue
  decodeInvoked : Bool
  calls : Nat
  waits : List ℚ
  retries : Int
  client : RestClient
deriving Repr, DecidableEq

/-- Embedding of the `Do` method: run the retry loop, then — exactly
as after the Go loop — return `(internalStatusRequestError, err)` when
the captured `err` is non-nil, else decode `resp`; a decode failure
returns `(internalStatusRequestError, decode error)`, success returns
`(status, nil)` with the decoded value stored in the output parameter.
The `client` field is the receiver unchanged: the body of `Do` (and of
`call`) contains no assignment to any field of `r`. -/
def RestClient.Do (r : RestClient) (env : DoEnv) : DoResult :=
  let st := r.doLoop env
  match st.err with
  | some e =>
    { status := internalStatusRequestError, err := some e, output := none,
      decodeInvoked := false, calls := st.calls, waits := st.waits,
      retries := st.retries, client := r }
  | none =>
    match unmarshalGo env.unmarshal st.resp with
    | Except.error e =>
      { status := internalStatusRequestError, err := some e, output := none,
        decodeInvoked := true, calls := st.calls, waits := st.waits,
        retries := st.retries, client := r }
    | Except.ok v =>
      { status := st.status, err := none, output := some v,
        decodeInvoked := true, calls := st.calls, waits := st.waits,
        retries := st.retries, client := r }

/-- The sequence of computed `sleep` values produced by `fuel`
loop iterations starting at loop index `i` with pending wait
`sleep`. -/
def backoffWaits (r : RestClient) : Nat → ℚ → Nat → List ℚ
  | _, _, 0 => []
  | i, sleep, fuel + 1 =>
    sleep :: backoffWaits r (i + 1) (r.intervalSeconds * r.backoffRate ^ (i + 1)) fuel

/-- Go conversion `time.Duration(sleep)` of a `float64`: truncation
toward zero. -/
def goTrunc (q : ℚ) : ℤ :=
  if q < 0 then ⌈q⌉ else ⌊q⌋

/-- Whole seconds actually slept by
`time.Sleep(time.Second * time.Duration(sleep))`: the truncated value,
clamped at zero because `time.Sleep` returns immediately on a
non-positive duration. -/
def performedWaitSeconds (q : ℚ) : ℤ :=
  max 0 (goTrunc q)

/-- The whole seconds actually slept at each of the loop's
`time.Sleep` calls, in order. -/
def DoResult.sleptSeconds (d : DoResult) : List ℤ :=
  d.waits.map performedWaitSeconds

/-- A call oracle in which some effectful step of `call` fails. -/
def callFails (e : CallEnv) : Bool :=
  e.encodeErr.isSome || e.requestErr.isSome || e.transportErr.isSome || e.readErr.isSome

/-- A call oracle describing a failure-free HTTP exchange whose
response status is in the retryable range (≥ 500). -/
def cleanHigh (e : CallEnv) : Prop :=
  e.encodeErr = none ∧ e.requestErr = none ∧ e.transportErr = none ∧
    e.readErr = none ∧ 500 ≤ e.respStatus

instance (e : CallEnv) : Decidable (cleanHigh e) := by
  unfold cleanHigh
  infer_instance

/-! Concrete configurations and environments used to instantiate the
theorems below on closed inputs. -/

/-- The configuration built in `main.go`. -/
def baseClient : RestClient :=
  { method := "GET", url := "http://localhost:8080",
    header := [("Content-Type", "application/json")],
    maxAttempts := 3, intervalSeconds := 1, backoffRate := 2, timeout := 0 }

/-- A failure-free call oracle answering 503. -/
def call503 : CallEnv :=
  { encodeErr := none, requestErr := none, transportErr := none,
    readErr := none, respStatus := 503, respBody := [1] }

/-- A failure-free call oracle answering 200. -/
def call200 : CallEnv :=
  { encodeErr := none, requestErr := none, transportErr := none,
    readErr := none, respStatus := 200, respBody := [7] }

/-- A call oracle whose network exchange fails with a deadline
error. -/
def callDeadline : CallEnv :=
  { encodeErr := none, requestErr := none,
    transportErr := some "context deadline exceeded",
    readErr := none, respStatus := 0, respBody := [] }

/-- A failure-free call oracle whose response status line carries the
(unregistered but wire-representable) code 999. -/
def call999 : CallEnv :=
  { encodeErr := none, requestErr := none, transportErr := none,
    readErr := none, respStatus := 999, respBody := [2] }

/-- A decode function that always succeeds. -/
def okDecode : Body → Except GoError JsonValue := fun _ => Except.ok "decoded"

/-- Every attempt sees a clean 503 exchange; decode succeeds. -/
def doEnvAll503 : DoEnv := { attempt := fun _ => call503, unmarshal := okDecode }

/-- Every attempt sees a clean 200 exchange; decode succeeds. -/
def doEnv200 : DoEnv := { attempt := fun _ => call200, unmarshal := okDecode }

/-- Every attempt fails at the transport step. -/
def doEnvDeadline : DoEnv := { attempt := fun _ => callDeadline, unmarshal := okDecode }

/-- Clean 200 exchanges whose body does not decode into the output
shape. -/
def doEnvBadDecode : DoEnv :=
  { attempt := fun _ => call200, unmarshal := fun _ => Except.error "invalid character" }

/-- `baseClient` restricted to a single attempt. -/
def oneAttemptClient : RestClient := { baseClient with maxAttempts := 1 }

/-- `baseClient` with a zero attempt budget. -/
def zeroAttemptClient : RestClient := { baseClient with maxAttempts := 0 }

/-- Two attempts with a fractional backoff base, for the truncation
theorem. -/
def fractionalClient : RestClient :=
  { baseClient with maxAttempts := 2, intervalSeconds := 3 / 2, backoffRate := 1 }

/-! Helper lemmas about `call` and the retry loop. -/

theorem doLoopAux_zero (r : RestClient) (env : DoEnv) (i : Nat) (sleep : ℚ)
    (st : LoopState) : doLoopAux r env 0 i sleep st = st := rfl

theorem doLoopAux_succ (r : RestClient) (env : DoEnv) (fuel i : Nat) (sleep : ℚ)
    (st : LoopState) :
    doLoopAux r env (fuel + 1) i sleep st =
      if (r.call (env.attempt i)).status < 500 then
        { status := (r.call (env.attempt i)).status,
          resp := (r.call (env.attempt i)).body,
          err := (r.call (env.attempt i)).err,
          retries := st.retries, calls := st.calls + 1, waits := st.waits ++ [sleep] }
      else
        doLoopAux r env fuel (i + 1) (r.intervalSeconds * r.backoffRate ^ (i + 1))
          { status := (r.call (env.attempt i)).status,
            resp := (r.call (env.attempt i)).body,
            err := (r.call (env.attempt i)).err,
            retries := st.retries + 1, calls := st.calls + 1,
            waits := st.waits ++ [sleep] } := rfl

theorem call_eq_of_no_failure (r : RestClient) (e : CallEnv)
    (h1 : e.encodeErr = none) (h2 : e.requestErr = none)
    (h3 : e.transportErr = none) (h4 : e.readErr = none) :
    r.call e = { status := e.respStatus, body := some e.respBody, err := none } := by
  simp [RestClient.call, h1, h2, h3, h4]

theorem call_eq_of_failure (r : RestClient) (e : CallEnv) (h : callFails e = true) :
    (r.call e).status = internalStatusRequestError ∧ (r.call e).body = none ∧
      (r.call e).err ≠ none := by
  unfold callFails at h
  unfold RestClient.call
  cases h1 : e.encodeErr <;> cases h2 : e.requestErr <;> cases h3 : e.transportErr <;>
    cases h4 : e.readErr <;> simp_all

theorem call_eq_of_err_none (r : RestClient) (e : CallEnv)
    (h : (r.call e).err = none) :
    r.call e = { status := e.respStatus, body := some e.respBody, err := none } := by
  unfold RestClient.call at h ⊢
  cases h1 : e.encodeErr <;> cases h2 : e.requestErr <;> cases h3 : e.transportErr <;>
    cases h4 : e.readErr <;> simp_all

theorem call_status_of_cleanHigh (r : RestClient) (e : CallEnv) (h : cleanHigh e) :
    500 ≤ (r.call e).status := by
  obtain ⟨h1, h2, h3, h4, h5⟩ := h
  rw [call_eq_of_no_failure r e h1 h2 h3 h4]
  exact h5

theorem backoffWaits_zero (r : RestClient) (i : Nat) (sleep : ℚ) :
    backoffWaits r i sleep 0 = [] := rfl

theorem backoffWaits_succ (r : RestClient) (i : Nat) (sleep : ℚ) (fuel : Nat) :
    backoffWaits r i sleep (fuel + 1) =
      sleep :: backoffWaits r (i + 1) (r.intervalSeconds * r.backoffRate ^ (i + 1)) fuel :=
  rfl

theorem backoffWaits_length (r : RestClient) :
    ∀ (fuel i : Nat) (sleep : ℚ), (backoffWaits r i sleep fuel).length = fuel := by
  intro fuel
  induction fuel with
  | zero => intro i sleep; rfl
  | succ f ih => intro i sleep; simp [backoffWaits, ih]

theorem backoffWaits_succ_eq (r : RestClient) :
    ∀ (f i : Nat) (sleep : ℚ),
      backoffWaits r i sleep (f + 1) =
        sleep :: (List.range f).map
          (fun k => r.intervalSeconds * r.backoffRate ^ (i + 1 + k)) := by
  intro f
  induction f with
  | zero => intro i sleep; simp [backoffWaits]
  | succ g ih =>
    intro i sleep
    rw [backoffWaits_succ, ih (i + 1)]
    rw [List.range_succ_eq_map, List.map_cons, List.map_map]
    refine congrArg (List.cons sleep) ?_
    rw [List.cons_eq_cons]
    refine ⟨by rw [Nat.add_zero], ?_⟩
    refine List.map_congr_left fun a _ => ?_
    simp only [Function.comp_apply]
    rw [show i + 1 + 1 + a = i + 1 + (a + 1) by omega]

theorem doLoopAux_exhaust (r : RestClient) (env : DoEnv) :
    ∀ (fuel i : Nat) (sleep : ℚ) (st : LoopState), 0 < fuel →
      (∀ k, k < fuel → 500 ≤ (r.call (env.attempt (i + k))).status) →
      doLoopAux r env fuel i sleep st =
        { status := (r.call (env.attempt (i + (fuel - 1)))).status,
          resp := (r.call (env.attempt (i + (fuel - 1)))).body,
          err := (r.call (env.attempt (i + (fuel - 1)))).err,
          retries := st.retries + (fuel : ℤ),
          calls := st.calls + fuel,
          waits := st.waits ++ backoffWaits r i sleep fuel } := by
  intro fuel
  induction fuel with
  | zero => intro i sleep st h; exact absurd h (lt_irrefl 0)
  | succ f ih =>
    intro i sleep st _ hhigh
    have h0 : 500 ≤ (r.call (env.attempt i)).status := by
      have := hhigh 0 (Nat.succ_pos f)
      rwa [Nat.add_zero] at this
    rw [doLoopAux_succ, if_neg (not_lt.mpr h0)]
    cases f with
    | zero =>
      rw [doLoopAux_zero, show i + (0 + 1 - 1) = i by omega]
      have hw : st.waits ++ [sleep] = st.waits ++ backoffWaits r i sleep (0 + 1) := by
        rw [backoffWaits_succ, backoffWaits_zero]
      rw [hw]
      congr 1
    | succ g =>
      rw [ih (i + 1) (r.intervalSeconds * r.backoffRate ^ (i + 1)) _ (Nat.succ_pos g)
        (fun k hk => by
          have := hhigh (k + 1) (by omega)
          rwa [show i + (k + 1) = i + 1 + k by omega] at this)]
      rw [show i + 1 + (g + 1 - 1) = i + (g + 1 + 1 - 1) by omega]
      have hw : st.waits ++ [sleep] ++
          backoffWaits r (i + 1) (r.intervalSeconds * r.backoffRate ^ (i + 1)) (g + 1) =
          st.waits ++ backoffWaits r i sleep (g + 1 + 1) := by
        rw [backoffWaits_succ r i sleep (g + 1), List.append_assoc, List.singleton_append]
      rw [hw]
      congr 1
      all_goals (push_cast; ring1)

theorem doLoopAux_break (r : RestClient) (env : DoEnv) :
    ∀ (j fuel i : Nat) (sleep : ℚ) (st : LoopState),
      j < fuel →
      (∀ k, k < j → 500 ≤ (r.call (env.attempt (i + k))).status) →
      (r.call (env.attempt (i + j))).status < 500 →
      doLoopAux r env fuel i sleep st =
        { status := (r.call (env.attempt (i + j))).status,
          resp := (r.call (env.attempt (i + j))).body,
          err := (r.call (env.attempt (i + j))).err,
          retries := st.retries + (j : ℤ),
          calls := st.calls + (j + 1),
          waits := st.waits ++ backoffWaits r i sleep (j + 1) } := by
  intro j
  induction j with
  | zero =>
    intro fuel i sleep st hj _ hlow
    cases fuel with
    | zero => exact absurd hj (lt_irrefl 0)
    | succ f =>
      rw [Nat.add_zero] at hlow
      rw [doLoopAux_succ, if_pos hlow, Nat.add_zero]
      congr 1
      all_goals first
      | rfl
      | omega
  | succ j ih =>
    intro fuel i sleep st hj hhigh hlow
    cases fuel with
    | zero => exact absurd hj (Nat.not_lt_zero _)
    | succ f =>
      have h0 : 500 ≤ (r.call (env.attempt i)).status := by
        have := hhigh 0 (Nat.succ_pos j)
        rwa [Nat.add_zero] at this
      rw [doLoopAux_succ, if_neg (not_lt.mpr h0)]
      rw [ih f (i + 1) (r.intervalSeconds * r.backoffRate ^ (i + 1)) _ (by omega)
        (fun k hk => by
          have := hhigh (k + 1) (by omega)
          rwa [show i + (k + 1) = i + 1 + k by omega] at this)
        (by rwa [show i + 1 + j = i + (j + 1) by omega])]
      rw [show i + 1 + j = i + (j + 1) by omega]
      congr 1
      all_goals first
      | (push_cast; ring1)
      | omega
      | (rw [backoffWaits_succ r i sleep (j + 1)];
         rw [List.append_assoc, List.singleton_append])

theorem doLoopAux_final (r : RestClient) (env : DoEnv) :
    ∀ (fuel i : Nat) (sleep : ℚ) (st : LoopState), 0 < fuel →
      ∃ m, 1 ≤ m ∧ m ≤ fuel ∧
        (doLoopAux r env fuel i sleep st).calls = st.calls + m ∧
        (doLoopAux r env fuel i sleep st).status =
          (r.call (env.attempt (i + (m - 1)))).status ∧
        (doLoopAux r env fuel i sleep st).resp =
          (r.call (env.attempt (i + (m - 1)))).body ∧
        (doLoopAux r env fuel i sleep st).err =
          (r.call (env.attempt (i + (m - 1)))).err := by
  intro fuel
  induction fuel with
  | zero => intro i sleep st h; exact absurd h (lt_irrefl 0)
  | succ f ih =>
    intro i sleep st _
    rw [doLoopAux_succ]
    by_cases hc : (r.call (env.attempt i)).status < 500
    · rw [if_pos hc]
      exact ⟨1, le_refl 1, by omega, rfl, by simp, by simp, by simp⟩
    · rw [if_neg hc]
      cases f with
      | zero =>
        rw [doLoopAux_zero]
        exact ⟨1, le_refl 1, by omega, rfl, by simp, by simp, by simp⟩
      | succ g =>
        obtain ⟨m, hm1, hm2, hcalls, hst, hresp, herr⟩ :=
          ih (i + 1) (r.intervalSeconds * r.backoffRate ^ (i + 1))
            { status := (r.call (env.attempt i)).status,
              resp := (r.call (env.attempt i)).body,
              err := (r.call (env.attempt i)).err,
              retries := st.retries + 1, calls := st.calls + 1,
              waits := st.waits ++ [sleep] } (Nat.succ_pos g)
        have hidx : i + 1 + (m - 1) = i + (m + 1 - 1) := by omega
        refine ⟨m + 1, by omega, by omega, ?_, by rw [hst, hidx], by rw [hresp, hidx],
          by rw [herr, hidx]⟩
        rw [hcalls]
        show st.calls + 1 + m = st.calls + (m + 1)
        omega

theorem doLoopAux_waits_nonneg (r : RestClient) (env : DoEnv)
    (hI : 0 ≤ r.intervalSeconds) (hB : 0 ≤ r.backoffRate) :
    ∀ (fuel i : Nat) (sleep : ℚ) (st : LoopState), 0 ≤ sleep →
      (∀ w ∈ st.waits, 0 ≤ w) →
      ∀ w ∈ (doLoopAux r env fuel i sleep st).waits, 0 ≤ w := by
  intro fuel
  induction fuel with
  | zero => intro i sleep st _ hst; exact hst
  | succ f ih =>
    intro i sleep st hs hst
    rw [doLoopAux_succ]
    have happ : ∀ w ∈ st.waits ++ [sleep], 0 ≤ w := by
      intro w hw
      rcases List.mem_append.mp hw with h | h
      · exact hst w h
      · rw [List.mem_singleton.mp h]; exact hs
    by_cases hc : (r.call (env.attempt i)).status < 500
    · rw [if_pos hc]; exact happ
    · rw [if_neg hc]
      exact ih (i + 1) _ _ (mul_nonneg hI (pow_nonneg hB _)) happ

theorem doLoop_eq (r : RestClient) (env : DoEnv) :
    r.doLoop env = doLoopAux r env r.maxAttempts.toNat 0 0
      { status := 0, resp := none, err := none, retries := 0, calls := 0, waits := [] } :=
  rfl

theorem Do_trace (r : RestClient) (env : DoEnv) :
    (r.Do env).calls = (r.doLoop env).calls ∧
    (r.Do env).waits = (r.doLoop env).waits ∧
    (r.Do env).retries = (r.doLoop env).retries := by
  simp only [RestClient.Do]
  rcases h : (r.doLoop env).err with _ | e
  · rcases h2 : unmarshalGo env.unmarshal (r.doLoop env).resp with e2 | v <;>
      simp [h, h2]
  · simp [h]

/-! The claims. -/

/-- Claim C4, amended: on each of the four failure conditions of
`call` — payload-encoding failure, request-construction failure,
network/transport failure (including deadline expiry), response-read
failure — `call` returns the reserved status 999 with a non-nil error
and a nil body; on a failure-free exchange it returns the parsed wire
status with the full body and a nil error, so it can also return 999,
with a nil error, when the status line of the response itself carries
the code 999. -/
theorem call_failure_reporting (r : RestClient) (e : CallEnv) :
    (callFails e = true →
      (r.call e).status = internalStatusRequestError ∧ (r.call e).body = none ∧
        (r.call e).err ≠ none) ∧
    (callFails e = false →
      r.call e = { status := e.respStatus, body := some e.respBody, err := none }) := by
  constructor
  · exact call_eq_of_failure r e
  · intro h
    unfold callFails at h
    unfold RestClient.call
    cases h1 : e.encodeErr <;> cases h2 : e.requestErr <;> cases h3 : e.transportErr <;>
      cases h4 : e.readErr <;> simp_all

/-- Closed instance of the amended claim C4: a deadline failure is
reported as 999 with a non-nil error and nil body, and a clean 503
exchange passes through untouched. -/
theorem call_failure_reporting_witness :
    ((baseClient.call callDeadline).status = internalStatusRequestError ∧
      (baseClient.call callDeadline).body = none ∧
      (baseClient.call callDeadline).err ≠ none) ∧
    baseClient.call call503 = { status := 503, body := some [1], err := none } :=
  ⟨(call_failure_reporting baseClient callDeadline).1 (by decide),
    (call_failure_reporting baseClient call503).2 (by decide)⟩

/-- Counterexample to claim C4 as stated: the oracle `call999`
triggers none of the four failure conditions, yet `call` returns the
status 999 — with a nil error and a full body, because the backend
status line itself carried 999.  So 999 is not returned only on the
four failure conditions. -/
theorem call_999_without_failure :
    callFails call999 = false ∧
    (baseClient.call call999).status = internalStatusRequestError ∧
    (baseClient.call call999).err = none ∧
    (baseClient.call call999).body = some [2] := by decide

/-- Claim C5: when the retry loop exits with a captured non-nil error,
`Do` returns the reserved status 999 together with that error, never
invokes the decode step, and leaves the output parameter unchanged. -/
theorem error_branch_returns_sentinel (r : RestClient) (env : DoEnv) (e : GoError)
    (h : (r.doLoop env).err = some e) :
    (r.Do env).status = internalStatusRequestError ∧
    (r.Do env).err = some e ∧
    (r.Do env).decodeInvoked = false ∧
    (r.Do env).output = none := by
  simp [RestClient.Do, h]

/-- Closed instance of claim C5: one attempt failing with a deadline
error. -/
theorem error_branch_returns_sentinel_witness :
    (oneAttemptClient.doLoop doEnvDeadline).err = some "context deadline exceeded" ∧
    ((oneAttemptClient.Do doEnvDeadline).status = internalStatusRequestError ∧
      (oneAttemptClient.Do doEnvDeadline).err = some "context deadline exceeded" ∧
      (oneAttemptClient.Do doEnvDeadline).decodeInvoked = false ∧
      (oneAttemptClient.Do doEnvDeadline).output = none) :=
  ⟨by decide, error_branch_returns_sentinel oneAttemptClient doEnvDeadline _ (by decide)⟩

/-- Claim C6: when the loop exits with a nil error but the response
body fails to decode into the output shape, `Do` returns the reserved
status 999 together with the decode error, although the HTTP exchange
completed. -/
theorem decode_failure_returns_sentinel (r : RestClient) (env : DoEnv) (e : GoError)
    (h1 : (r.doLoop env).err = none)
    (h2 : unmarshalGo env.unmarshal (r.doLoop env).resp = Except.error e) :
    (r.Do env).status = internalStatusRequestError ∧
    (r.Do env).err = some e ∧
    (r.Do env).decodeInvoked = true ∧
    (r.Do env).output = none := by
  simp [RestClient.Do, h1, h2]

/-- Closed instance of claim C6: a clean 200 exchange whose body does
not decode. -/
theorem decode_failure_returns_sentinel_witness :
    (oneAttemptClient.doLoop doEnvBadDecode).err = none ∧
    unmarshalGo doEnvBadDecode.unmarshal (oneAttemptClient.doLoop doEnvBadDecode).resp =
      Except.error "invalid character" ∧
    ((oneAttemptClient.Do doEnvBadDecode).status = internalStatusRequestError ∧
      (oneAttemptClient.Do doEnvBadDecode).err = some "invalid character" ∧
      (oneAttemptClient.Do doEnvBadDecode).decodeInvoked = true ∧
      (oneAttemptClient.Do doEnvBadDecode).output = none) :=
  ⟨by decide, by decide,
    decode_failure_returns_sentinel oneAttemptClient doEnvBadDecode _ (by decide) (by decide)⟩

/-- Claim C8: with `maxAttempts ≤ 0` the loop body is skipped
entirely — the transport step is never invoked and no wait is
performed — and `Do` falls through to decoding the nil body, returning
999 with the JSON decode error instead of rejecting the
configuration. -/
theorem zero_attempts_never_calls (r : RestClient) (env : DoEnv)
    (h : r.maxAttempts ≤ 0) :
    (r.Do env).calls = 0 ∧
    (r.Do env).waits = [] ∧
    (r.Do env).status = internalStatusRequestError ∧
    (r.Do env).err = some "unexpected end of JSON input" ∧
    (r.Do env).decodeInvoked = true ∧
    (r.Do env).output = none := by
  have htoNat : r.maxAttempts.toNat = 0 := by omega
  have hdl : r.doLoop env =
      { status := 0, resp := none, err := none, retries := 0, calls := 0, waits := [] } := by
    rw [doLoop_eq, htoNat, doLoopAux_zero]
  simp [RestClient.Do, hdl, unmarshalGo]

/-- Closed instance of claim C8: a zero attempt budget. -/
theorem zero_attempts_never_calls_witness :
    (zeroAttemptClient.Do doEnv200).calls = 0 ∧
    (zeroAttemptClient.Do doEnv200).waits = [] ∧
    (zeroAttemptClient.Do doEnv200).status = internalStatusRequestError ∧
    (zeroAttemptClient.Do doEnv200).err = some "unexpected end of JSON input" ∧
    (zeroAttemptClient.Do doEnv200).decodeInvoked = true ∧
    (zeroAttemptClient.Do doEnv200).output = none :=
  zero_attempts_never_calls zeroAttemptClient doEnv200 (by decide)

/-- Claim C9: `Do` leaves every configuration field of the receiver —
method, url, header, maxAttempts, intervalSeconds, backoffRate,
timeout — exactly as it found it: the per-call configuration is
read-only for one execution. -/
theorem config_read_only (r : RestClient) (env : DoEnv) :
    (r.Do env).client = r ∧
    (r.Do env).client.method = r.method ∧
    (r.Do env).client.url = r.url ∧
    (r.Do env).client.header = r.header ∧
    (r.Do env).client.maxAttempts = r.maxAttempts ∧
    (r.Do env).client.intervalSeconds = r.intervalSeconds ∧
    (r.Do env).client.backoffRate = r.backoffRate ∧
    (r.Do env).client.timeout = r.timeout := by
  have h : (r.Do env).client = r := by
    simp only [RestClient.Do]
    rcases h : (r.doLoop env).err with _ | e
    · rcases h2 : unmarshalGo env.unmarshal (r.doLoop env).resp with e2 | v <;> simp [h, h2]
    · simp [h]
  exact ⟨h, by rw [h], by rw [h], by rw [h], by rw [h], by rw [h], by rw [h], by rw [h]⟩

/-- Claim C1: with `maxAttempts = N ≥ 1` and a backend whose every
response is a failure-free exchange with status ≥ 500, `Do` invokes
the transport step exactly `N` times, and the computed sleep schedule
is a zero wait before the first attempt followed by the `N − 1` waits
`intervalSeconds * backoffRate ^ k` for `k = 1, …, N − 1`. -/
theorem retry_schedule_on_persistent_500 (r : RestClient) (env : DoEnv) (N : Nat)
    (hN : r.maxAttempts = (N : ℤ)) (hpos : 1 ≤ N)
    (hclean : ∀ i, cleanHigh (env.attempt i)) :
    (r.Do env).calls = N ∧
    (r.Do env).waits =
      0 :: (List.range (N - 1)).map (fun k => r.intervalSeconds * r.backoffRate ^ (k + 1)) := by
  have htrace := Do_trace r env
  have htoNat : r.maxAttempts.toNat = N := by omega
  have hloop := doLoopAux_exhaust r env N 0 0
    { status := 0, resp := none, err := none, retries := 0, calls := 0, waits := [] }
    (by omega)
    (fun k _ => call_status_of_cleanHigh r _ (hclean (0 + k)))
  have hdl : r.doLoop env = doLoopAux r env N 0 0
      { status := 0, resp := none, err := none, retries := 0, calls := 0, waits := [] } := by
    rw [doLoop_eq, htoNat]
  constructor
  · rw [htrace.1, hdl, hloop]
    show 0 + N = N
    omega
  · rw [htrace.2.1, hdl, hloop]
    show ([] : List ℚ) ++ backoffWaits r 0 0 N = _
    rw [List.nil_append]
    obtain ⟨M, rfl⟩ : ∃ M, N = M + 1 := ⟨N - 1, by omega⟩
    rw [backoffWaits_succ_eq, show M + 1 - 1 = M by omega]
    refine congrArg (List.cons 0) ?_
    refine List.map_congr_left fun a _ => ?_
    rw [show 0 + 1 + a = a + 1 by omega]

/-- Closed instance of claim C1: three attempts at interval 1 and
backoff rate 2 against a permanent 503 backend — three calls, waits of
0, 2 and 4 seconds. -/
theorem retry_schedule_on_persistent_500_witness :
    (baseClient.Do doEnvAll503).calls = 3 ∧
    (baseClient.Do doEnvAll503).waits = [0, 2, 4] := by
  have h := retry_schedule_on_persistent_500 baseClient doEnvAll503 3 (by decide)
    (by decide) (fun _ => (by decide : cleanHigh call503))
  refine ⟨h.1, ?_⟩
  rw [h.2]
  norm_num [baseClient, List.range_succ]

/-- Claim C2: the loop breaks at the first attempt whose status is
strictly below 500, regardless of remaining attempts: if the attempts
before index `j` all returned ≥ 500 and attempt `j` returns below 500,
`call` runs exactly `j + 1` times, the retry counter ends at `j`, and
exactly `j + 1` sleeps were performed; in particular a first attempt
below 500 gives one call, the single zero wait, and a never-incremented
retry counter. -/
theorem break_below_500 (r : RestClient) (env : DoEnv) (j : Nat)
    (hj : j < r.maxAttempts.toNat)
    (hhigh : ∀ k, k < j → 500 ≤ (r.call (env.attempt k)).status)
    (hlow : (r.call (env.attempt j)).status < 500) :
    (r.Do env).calls = j + 1 ∧
    (r.Do env).retries = (j : ℤ) ∧
    (r.Do env).waits.length = j + 1 ∧
    (j = 0 → (r.Do env).waits = [0]) := by
  have htrace := Do_trace r env
  have hbr := doLoopAux_break r env j r.maxAttempts.toNat 0 0
    { status := 0, resp := none, err := none, retries := 0, calls := 0, waits := [] }
    hj
    (fun k hk => by rw [Nat.zero_add]; exact hhigh k hk)
    (by rw [Nat.zero_add]; exact hlow)
  have hdl : r.doLoop env = doLoopAux r env r.maxAttempts.toNat 0 0
      { status := 0, resp := none, err := none, retries := 0, calls := 0, waits := [] } :=
    doLoop_eq r env
  refine ⟨?_, ?_, ?_, ?_⟩
  · rw [htrace.1, hdl, hbr]
    show 0 + (j + 1) = j + 1
    omega
  · rw [htrace.2.2, hdl, hbr]
    show 0 + (j : ℤ) = (j : ℤ)
    omega
  · rw [htrace.2.1, hdl, hbr]
    show (([] : List ℚ) ++ backoffWaits r 0 0 (j + 1)).length = j + 1
    rw [List.nil_append, backoffWaits_length]
  · intro hj0
    subst hj0
    rw [htrace.2.1, hdl, hbr]
    rfl

/-- Closed instance of claim C2: a first attempt answering 200 under a
three-attempt budget — one call, the zero wait only, no retry. -/
theorem break_below_500_witness :
    (baseClient.Do doEnv200).calls = 1 ∧
    (baseClient.Do doEnv200).retries = 0 ∧
    (baseClient.Do doEnv200).waits.length = 1 ∧
    (baseClient.Do doEnv200).waits = [0] := by
  have h := break_below_500 baseClient doEnv200 0 (by decide)
    (fun k hk => absurd hk (Nat.not_lt_zero k)) (by decide)
  exact ⟨h.1, h.2.1, h.2.2.1, h.2.2.2 rfl⟩

/-- Claim C3: with `maxAttempts ≥ 1` and every attempt a failure-free
exchange with status ≥ 500, `Do` exhausts all attempts with no
distinct retries-exhausted error: the captured error is nil, the last
response body is decoded, and when that decode succeeds `Do` returns
the last (≥ 500) status with a nil error. -/
theorem exhausted_500_returns_last_status (r : RestClient) (env : DoEnv) (v : JsonValue)
    (hN : 1 ≤ r.maxAttempts)
    (hclean : ∀ i, cleanHigh (env.attempt i))
    (hdec : env.unmarshal ((env.attempt (r.maxAttempts.toNat - 1)).respBody) = Except.ok v) :
    (r.Do env).calls = r.maxAttempts.toNat ∧
    (r.Do env).err = none ∧
    (r.Do env).status = (env.attempt (r.maxAttempts.toNat - 1)).respStatus ∧
    500 ≤ (r.Do env).status ∧
    (r.Do env).output = some v := by
  have hnpos : 0 < r.maxAttempts.toNat := by omega
  have hloop := doLoopAux_exhaust r env r.maxAttempts.toNat 0 0
    { status := 0, resp := none, err := none, retries := 0, calls := 0, waits := [] }
    hnpos
    (fun k _ => call_status_of_cleanHigh r _ (hclean (0 + k)))
  obtain ⟨hc1, hc2, hc3, hc4, hc5⟩ := hclean (r.maxAttempts.toNat - 1)
  have hcall : r.call (env.attempt (r.maxAttempts.toNat - 1)) =
      { status := (env.attempt (r.maxAttempts.toNat - 1)).respStatus,
        body := some ((env.attempt (r.maxAttempts.toNat - 1)).respBody), err := none } :=
    call_eq_of_no_failure r _ hc1 hc2 hc3 hc4
  rw [Nat.zero_add, hcall] at hloop
  have herr : (r.doLoop env).err = none := by rw [doLoop_eq, hloop]
  have hresp : (r.doLoop env).resp =
      some ((env.attempt (r.maxAttempts.toNat - 1)).respBody) := by rw [doLoop_eq, hloop]
  have hstat : (r.doLoop env).status =
      (env.attempt (r.maxAttempts.toNat - 1)).respStatus := by rw [doLoop_eq, hloop]
  have hdecode : unmarshalGo env.unmarshal (r.doLoop env).resp = Except.ok v := by
    rw [hresp]
    simpa [unmarshalGo] using hdec
  have htrace := Do_trace r env
  refine ⟨?_, ?_, ?_, ?_, ?_⟩
  · rw [htrace.1, doLoop_eq, hloop]
    show 0 + r.maxAttempts.toNat = r.maxAttempts.toNat
    omega
  · simp [RestClient.Do, herr, hdecode]
  · simp [RestClient.Do, herr, hdecode, hstat]
  · simp only [RestClient.Do, herr, hdecode]
    rw [hstat]
    exact hc5
  · simp [RestClient.Do, herr, hdecode]

/-- Closed instance of claim C3: three attempts all answering a clean
503 whose body decodes — status 503 with a nil error. -/
theorem exhausted_500_returns_last_status_witness :
    (baseClient.Do doEnvAll503).calls = 3 ∧
    (baseClient.Do doEnvAll503).err = none ∧
    (baseClient.Do doEnvAll503).status = 503 ∧
    500 ≤ (baseClient.Do doEnvAll503).status ∧
    (baseClient.Do doEnvAll503).output = some "decoded" :=
  exhausted_500_returns_last_status baseClient doEnvAll503 "decoded" (by decide)
    (fun _ => (by decide : cleanHigh call503)) (by decide)

/-- Claim C7: when the loop exits with a nil error and the body
decodes, `Do` returns the true HTTP status of the last attempt with a
nil error and stores the decoded value in the output parameter; the
final body is exactly the body the backend served on that last
attempt, so the decoded value is the decode of what the backend
served. -/
theorem success_returns_true_status (r : RestClient) (env : DoEnv) (v : JsonValue)
    (h1 : (r.doLoop env).err = none)
    (h2 : unmarshalGo env.unmarshal (r.doLoop env).resp = Except.ok v) :
    (r.Do env).status = (r.doLoop env).status ∧
    (r.Do env).err = none ∧
    (r.Do env).output = some v ∧
    ∃ j, (r.Do env).calls = j + 1 ∧
      (r.Do env).status = (env.attempt j).respStatus ∧
      (r.doLoop env).resp = some ((env.attempt j).respBody) ∧
      env.unmarshal ((env.attempt j).respBody) = Except.ok v := by
  have hA : (r.Do env).status = (r.doLoop env).status := by
    simp [RestClient.Do, h1, h2]
  have hB : (r.Do env).err = none := by simp [RestClient.Do, h1, h2]
  have hC : (r.Do env).output = some v := by simp [RestClient.Do, h1, h2]
  refine ⟨hA, hB, hC, ?_⟩
  rcases hfuel : r.maxAttempts.toNat with _ | f
  · exfalso
    have hresp0 : (r.doLoop env).resp = none := by
      rw [doLoop_eq, hfuel, doLoopAux_zero]
    rw [hresp0] at h2
    simp [unmarshalGo] at h2
  · obtain ⟨m, hm1, hm2, hcalls, hst, hresp, herr⟩ :=
      doLoopAux_final r env (f + 1) 0 0
        { status := 0, resp := none, err := none, retries := 0, calls := 0, waits := [] }
        (Nat.succ_pos f)
    have hdl : r.doLoop env = doLoopAux r env (f + 1) 0 0
        { status := 0, resp := none, err := none, retries := 0, calls := 0, waits := [] } := by
      rw [doLoop_eq, hfuel]
    have h1' : (r.call (env.attempt (m - 1))).err = none := by
      have hx := h1
      rw [hdl, herr, Nat.zero_add] at hx
      exact hx
    have hcall : r.call (env.attempt (m - 1)) =
        { status := (env.attempt (m - 1)).respStatus,
          body := some ((env.attempt (m - 1)).respBody), err := none } :=
      call_eq_of_err_none r _ h1'
    have hresp' : (r.doLoop env).resp = some ((env.attempt (m - 1)).respBody) := by
      rw [hdl, hresp, Nat.zero_add, hcall]
    refine ⟨m - 1, ?_, ?_, hresp', ?_⟩
    · rw [(Do_trace r env).1, hdl, hcalls]
      show 0 + m = m - 1 + 1
      omega
    · rw [hA, hdl, hst, Nat.zero_add, hcall]
    · rw [hresp'] at h2
      simpa [unmarshalGo] using h2

/-- Closed instance of claim C7: a single clean 200 attempt whose body
decodes. -/
theorem success_returns_true_status_witness :
    (oneAttemptClient.Do doEnv200).status = (oneAttemptClient.doLoop doEnv200).status ∧
    (oneAttemptClient.Do doEnv200).err = none ∧
    (oneAttemptClient.Do doEnv200).output = some "decoded" ∧
    ∃ j, (oneAttemptClient.Do doEnv200).calls = j + 1 ∧
      (oneAttemptClient.Do doEnv200).status = (doEnv200.attempt j).respStatus ∧
      (oneAttemptClient.doLoop doEnv200).resp = some ((doEnv200.attempt j).respBody) ∧
      doEnv200.unmarshal ((doEnv200.attempt j).respBody) = Except.ok "decoded" :=
  success_returns_true_status oneAttemptClient doEnv200 "decoded" (by decide) (by decide)

/-- Claim C10: under the documented non-negative retry-policy fields,
the whole seconds actually slept at each `time.Sleep` are the computed
backoff value truncated toward zero — `time.Duration(sleep)` times one
second — so a computed wait of 1.5 seconds sleeps exactly 1 second,
and any computed wait below 1 second sleeps 0. -/
theorem wait_truncation (r : RestClient) (env : DoEnv)
    (h1 : 0 ≤ r.intervalSeconds) (h2 : 0 ≤ r.backoffRate) :
    (r.Do env).sleptSeconds = (r.Do env).waits.map goTrunc ∧
    performedWaitSeconds (3 / 2 : ℚ) = 1 ∧
    (∀ q : ℚ, q < 1 → performedWaitSeconds q = 0) := by
  refine ⟨?_, ?_, ?_⟩
  · have hnn : ∀ w ∈ (r.Do env).waits, 0 ≤ w := by
      rw [(Do_trace r env).2.1, doLoop_eq]
      exact doLoopAux_waits_nonneg r env h1 h2 r.maxAttempts.toNat 0 0 _ le_rfl
        (by intro w hw; simp at hw)
    unfold DoResult.sleptSeconds
    refine List.map_congr_left fun w hw => ?_
    have hwnn : 0 ≤ w := hnn w hw
    have htr : 0 ≤ goTrunc w := by
      unfold goTrunc
      rw [if_neg (not_lt.mpr hwnn)]
      exact Int.floor_nonneg.mpr hwnn
    unfold performedWaitSeconds
    exact max_eq_right htr
  · norm_num [performedWaitSeconds, goTrunc]
  · intro q hq
    unfold performedWaitSeconds goTrunc
    by_cases hneg : q < 0
    · rw [if_pos hneg]
      refine max_eq_left ?_
      refine Int.ceil_le.mpr ?_
      push_cast
      linarith
    · rw [if_neg hneg]
      have h0 : (0 : ℚ) ≤ q := not_lt.mp hneg
      have hfl : ⌊q⌋ = 0 := Int.floor_eq_zero_iff.mpr ⟨h0, hq⟩
      rw [hfl]
      exact max_self 0

/-- Closed instance of claim C10: two attempts with base 3/2 and rate
1 against a permanent 503 backend — the computed waits are truncated
toward zero when slept. -/
theorem wait_truncation_witness :
    (fractionalClient.Do doEnvAll503).sleptSeconds =
      (fractionalClient.Do doEnvAll503).waits.map goTrunc ∧
    performedWaitSeconds (3 / 2 : ℚ) = 1 ∧
    (∀ q : ℚ, q < 1 → performedWaitSeconds q = 0) :=
  wait_truncation fractionalClient doEnvAll503 (by norm_num [fractionalClient, baseClient])
    (by norm_num [fractionalClient, baseClient])

end GoRestClient
